import Mathlib

/-!
Shallow embedding of the attendance autograder (`src/app.py`) and proofs about
its pipeline: schema normalization, time-window filtering, keyphrase
validation, numeric signal extraction, assistance detection, report
aggregation, and roster reconciliation (Canvas upload).

Strings are modelled through their character lists so that every operation is
an executable structural recursion.  Timestamps are modelled at one-second
resolution: a well-formed ISO string `YYYY-MM-DDTHH:MM:SS` (optionally with a
trailing `Z`, as Google Forms produces) is parsed to a natural number that is
strictly monotone in the lexicographic date-time order, mirroring pandas
`DatetimeIndex` parsing; a string pandas cannot parse yields `none`, and the
DatetimeIndex constructor raising on such a value is modelled by the
`Except`-valued `filter_by_day`.
-/

/-- Python `str.lower` on one character (ASCII, which covers the data here). -/
def lowerChar (c : Char) : Char :=
  if 'A' ≤ c ∧ c ≤ 'Z' then Char.ofNat (c.toNat + 32) else c

/-- ASCII whitespace test used by Python `str.strip`. -/
def isSpaceChar (c : Char) : Bool :=
  c = ' ' || c = '\t' || c = '\n' || c = '\r'

/-- Python `str.strip`: drop leading and trailing whitespace. -/
def pyStrip (s : String) : String :=
  String.mk (((s.data.dropWhile isSpaceChar).reverse.dropWhile isSpaceChar).reverse)

/-- Python `str.lower`. -/
def pyLower (s : String) : String :=
  String.mk (s.data.map lowerChar)

/-- The normalization `x.strip().lower()` applied by `filter_by_passphrase`
(line 152) to the concept answer and by `main` (line 200) to the keyphrase. -/
def pyNorm (s : String) : String :=
  pyLower (pyStrip s)

/-- Numeric value of a decimal digit character. -/
def digitVal (c : Char) : Option Nat :=
  if c.isDigit then some (c.toNat - 48) else none

/-- Two decimal digits. -/
def twoDig (a b : Char) : Option Nat :=
  match digitVal a, digitVal b with
  | some x, some y => some (x * 10 + y)
  | _, _ => none

/-- Parse the 19-character core `YYYY-MM-DDTHH:MM:SS` of an ISO timestamp,
validating field ranges as pandas does, and encode it as a natural number
monotone in the date-time order. -/
def parse19 : List Char → Option Nat
  | [y1, y2, y3, y4, c1, a1, a2, c2, b1, b2, c3, h1, h2, c4, m1, m2, c5, e1, e2] =>
    if c1 = '-' && c2 = '-' && c3 = 'T' && c4 = ':' && c5 = ':' then
      match twoDig y1 y2, twoDig y3 y4, twoDig a1 a2, twoDig b1 b2,
            twoDig h1 h2, twoDig m1 m2, twoDig e1 e2 with
      | some yh, some yl, some mo, some d, some h, some mi, some se =>
        if 1 ≤ mo && mo ≤ 12 && 1 ≤ d && d ≤ 31 && h ≤ 23 && mi ≤ 59 && se ≤ 59 then
          some ((((((yh * 100 + yl) * 13 + mo) * 32 + d) * 24 + h) * 60 + mi) * 60 + se)
        else none
      | _, _, _, _, _, _, _ => none
    else none
  | _ => none

/-- Model of pandas timestamp parsing for the strings this program meets:
the 19-character ISO core, optionally followed by `Z`.  `none` models a
string on which `pd.DatetimeIndex` raises. -/
def parseTs (s : String) : Option Nat :=
  match s.data.drop 19 with
  | [] => parse19 (s.data.take 19)
  | ['Z'] => parse19 (s.data.take 19)
  | _ => none

/-- One cell of the tabular data: a raw string, a numeric value, or missing
(pandas `NaN`). -/
inductive Cell where
  | str (s : String)
  | num (q : ℚ)
  | missing
deriving DecidableEq

/-- One row of the attendance DataFrame after schema normalization: the four
metadata columns, the concept-of-the-day free-text column, and the
signal columns (rating / time-spent), each carried with its column name. -/
structure Rec where
  responseId : String
  createTime : String
  lastSubmittedTime : Option String
  respondentEmail : String
  concept : String
  signals : List (String × Cell)
deriving DecidableEq

/-- Sort key used by `sort_index()`: the parsed timestamp. -/
def tsKey (r : Rec) : Nat :=
  match r.lastSubmittedTime with
  | some s => (parseTs s).getD 0
  | none => 0

/-- Ordering of rows by parsed timestamp. -/
def tsLE (a b : Rec) : Prop := tsKey a ≤ tsKey b

instance : DecidableRel tsLE := fun a b => Nat.decLe (tsKey a) (tsKey b)

instance : IsTotal Rec tsLE := ⟨fun a b => Nat.le_total (tsKey a) (tsKey b)⟩

instance : IsTrans Rec tsLE := ⟨fun _ _ _ h h' => Nat.le_trans h h'⟩

/-- Membership of a row in the closed slice `[S, E]` taken by
`.loc[f"{date}T19:00:00":f"{date}T20:00:00"]`: rows whose timestamp parses to
`t` with `S ≤ t ≤ E`; rows with a missing timestamp (`NaT`) fall outside every
slice. -/
def tsInWindow (S E : Nat) (r : Rec) : Bool :=
  match r.lastSubmittedTime with
  | some s =>
    match parseTs s with
    | some t => decide (S ≤ t) && decide (t ≤ E)
    | none => false
  | none => false

instance {ε α : Type _} [DecidableEq ε] [DecidableEq α] : DecidableEq (Except ε α) :=
  fun a b =>
    match a, b with
    | Except.ok x, Except.ok y =>
      if h : x = y then isTrue (by rw [h]) else isFalse (by intro hc; cases hc; exact h rfl)
    | Except.error x, Except.error y =>
      if h : x = y then isTrue (by rw [h]) else isFalse (by intro hc; cases hc; exact h rfl)
    | Except.ok _, Except.error _ => isFalse (by intro hc; cases hc)
    | Except.error _, Except.ok _ => isFalse (by intro hc; cases hc)

/-- Model of `filter_by_day` (lines 145-147): build a `DatetimeIndex` from the
`lastSubmittedTime` column (raising, i.e. `Except.error`, if any present value
is unparseable), sort by it, and take the closed slice from
`{date}T19:00:00` to `{date}T20:00:00`. -/
def filter_by_day (df : List Rec) (date : String) : Except String (List Rec) :=
  match parseTs (date ++ "T19:00:00"), parseTs (date ++ "T20:00:00") with
  | some S, some E =>
    if df.all (fun r =>
        match r.lastSubmittedTime with
        | some s => (parseTs s).isSome
        | none => true) then
      Except.ok (List.insertionSort tsLE (df.filter (tsInWindow S E)))
    else
      Except.error "could not parse timestamp"
  | _, _ => Except.error "could not parse date"

/-- The fuzzy-match acceptance threshold (line 30). -/
def FUZZ_THRESHOLD : Nat := 70

/-- The in-place rewrite of the concept column performed by
`filter_by_passphrase` line 152: `df[ckey] = map(lambda x: x.strip().lower(), df[ckey])`. -/
def normConcept (r : Rec) : Rec :=
  { r with concept := pyNorm r.concept }

/-- Model of `filter_by_passphrase` (lines 150-160).  The external scorer
`thefuzz.fuzz.partial_token_set_ratio` is an opaque parameter `scoreFn`
(0-100 scale); the function lower-cases and strips the concept column in
place, then keeps the rows whose normalized concept scores at least
`FUZZ_THRESHOLD` against the given passphrase. -/
def filter_by_passphrase (scoreFn : String → String → Nat) (df : List Rec)
    (passphrase : String) : List Rec :=
  (df.map normConcept).filter (fun r => FUZZ_THRESHOLD ≤ scoreFn r.concept passphrase)

/-- Model of the keyphrase normalization done by `main` (line 200) before it
calls `filter_by_passphrase` (line 209). -/
def main_validate (scoreFn : String → String → Nat) (df : List Rec)
    (keyphrase : String) : List Rec :=
  filter_by_passphrase scoreFn df (pyNorm keyphrase)

/-- Check that the first list occurs at the head of the second list. -/
def headMatches : List Char → List Char → Bool
  | [], _ => true
  | _ :: _, [] => false
  | a :: as, b :: bs => a = b && headMatches as bs

/-- Check that the first list occurs somewhere inside the second list. -/
def subAt (pat : List Char) : List Char → Bool
  | [] => pat.isEmpty
  | c :: cs => headMatches pat (c :: cs) || subAt pat cs

/-- Python `in` on strings: `pat` occurs somewhere in `s`. -/
def containsSub (s pat : String) : Bool :=
  subAt pat.data s.data

/-- Column names matching any of the given substrings, as in
`df.columns.to_series().apply(lambda s: any(x in s for x in matches))`. -/
def anyMatch (pats : List String) (name : String) : Bool :=
  pats.any (fun p => containsSub name p)

/-- The rating-column substrings of `identify_assistance_need` (line 164). -/
def ratingMatches : List String := ["Help", "Understanding", "Speed"]

/-- The numeric-column substrings of `convert_numeric_cols` (line 172). -/
def convertMatches : List String := ["hours", "Help", "Understanding", "Speed"]

/-- pandas `.lt(t)` on one cell: numeric comparison, and `NaN < t` is false. -/
def cellLt (c : Cell) (t : ℚ) : Bool :=
  match c with
  | Cell.num q => decide (q < t)
  | Cell.str _ => false
  | Cell.missing => false

/-- Model of `identify_assistance_need` (lines 163-168): keep the rows in
which some column whose name contains one of the rating substrings has a
value strictly below 2. -/
def identify_assistance_need (df : List Rec) : List Rec :=
  df.filter (fun r => r.signals.any (fun p => anyMatch ratingMatches p.1 && cellLt p.2 2))

/-- Parse a nonempty all-digit string to a rational, the fragment of
`pd.to_numeric` exercised by the Likert-scale answers. -/
def parseNum (s : String) : Option ℚ :=
  if s.data ≠ [] ∧ s.data.all Char.isDigit then
    some ((s.data.foldl (fun n c => n * 10 + (c.toNat - 48)) 0 : ℕ) : ℚ)
  else none

/-- `pd.to_numeric(errors="coerce")` on one cell: unparseable values become
missing (`NaN`), numeric values pass through. -/
def toNumeric (c : Cell) : Cell :=
  match c with
  | Cell.str s =>
    match parseNum s with
    | some q => Cell.num q
    | none => Cell.missing
  | Cell.num q => Cell.num q
  | Cell.missing => Cell.missing

/-- Model of `convert_numeric_cols` (lines 171-177): coerce every cell of a
column whose name contains one of `convertMatches` to numeric. -/
def convert_numeric_cols (df : List Rec) : List Rec :=
  df.map (fun r =>
    { r with signals := r.signals.map (fun p =>
        if anyMatch convertMatches p.1 then (p.1, toNumeric p.2) else p) })

/-- A column of the DataFrame as `select_dtypes` sees it: numeric-typed with
possibly-missing entries, or non-numeric (object-typed). -/
inductive ColData where
  | numeric (vals : List (Option ℚ))
  | text (vals : List String)
deriving DecidableEq

/-- pandas `Series.mean()` with the default `skipna=True`: the arithmetic mean
of the non-missing values, `NaN` (here `none`) when every value is missing. -/
def colMean (vals : List (Option ℚ)) : Option ℚ :=
  let xs := vals.filterMap id
  if xs.isEmpty then none else some (xs.sum / (xs.length : ℚ))

/-- Model of `attend_df.select_dtypes("number").mean()` (line 214): the mean
of every numeric column, non-numeric columns dropped. -/
def report (tbl : List (String × ColData)) : List (String × Option ℚ) :=
  tbl.filterMap (fun p =>
    match p.2 with
    | ColData.numeric vs => some (p.1, colMean vs)
    | ColData.text _ => none)

/-- One roster entry as returned by `get_users` / `get_profile`
(lines 121-122): login id (email), display name, internal Canvas id. -/
structure Student where
  login_id : String
  name : String
  id : Nat
deriving DecidableEq

/-- The `respondentEmail` column of the validated DataFrame. -/
def emailsOf (df : List Rec) : List String :=
  df.map (fun r => r.respondentEmail)

/-- Sequential `apply`-driven grade submission with a fallible provider call
(`set_score`, lines 133-137, has no exception handling): attempts entries in
order, records each attempted `(student, score)` pair, and stops at the first
provider error, which propagates. -/
def runScores (api : Student → Nat → Except String Unit) (score : Nat) :
    List Student → List (Student × Nat) × Option String
  | [] => ([], none)
  | u :: rest =>
    match api u score with
    | Except.ok _ =>
      let res := runScores api score rest
      ((u, score) :: res.1, res.2)
    | Except.error e => ([(u, score)], some e)

/-- Model of `CanvasCourse.canvas_upload` (lines 119-131): split the roster by
whether each `login_id` appears among the `respondentEmail` values (pandas
`isin`, exact case-sensitive string match), then submit score 0 for every
absent student and score 1 for every present one, in that order.  Returns the
attempted submissions and the first provider error, if any. -/
def canvas_upload (api : Student → Nat → Except String Unit) (roster : List Student)
    (df : List Rec) : List (Student × Nat) × Option String :=
  let emails := emailsOf df
  let absent := roster.filter (fun u => !(emails.contains u.login_id))
  let present := roster.filter (fun u => emails.contains u.login_id)
  match runScores api 0 absent with
  | (da, some e) => (da, some e)
  | (da, none) =>
    let rp := runScores api 1 present
    (da ++ rp.1, rp.2)

/-- Split a character list on `_`, the list-level counterpart of Python
`s.split("_")`. -/
def splitUnd : List Char → List (List Char)
  | [] => [[]]
  | c :: cs =>
    let r := splitUnd cs
    if c = '_' then [] :: r
    else
      match r with
      | h :: t => (c :: h) :: t
      | [] => [[c]]

/-- The question-identifier extraction
`re.findall(r"_[^_]*_", x)[0].replace("_", "")` (line 90): the text between
the first and second underscore; `none` models the `IndexError` raised when
the regex finds no match (fewer than two underscores). -/
def extractKey (s : String) : Option String :=
  match splitUnd s.data with
  | _ :: k :: _ :: _ => some (String.mk k)
  | _ => none

/-- Whether the string contains the given character (`"_" in x`). -/
def hasChar (s : String) (c : Char) : Bool :=
  s.data.any (fun x => x = c)

/-- List-level suffix test. -/
def endsL (l suf : List Char) : Bool :=
  l.drop (l.length - suf.length) == suf

/-- `x.endswith("questionId")` (line 84). -/
def endsWithQ (s : String) : Bool :=
  endsL s.data "questionId".data

/-- Extract the question identifier of every column, failing (as the regex
indexing on line 90 would) if any column yields none. -/
def allKeys : List String → Option (List String)
  | [] => some []
  | c :: cs =>
    match extractKey c, allKeys cs with
    | some k, some ks => some (k :: ks)
    | _, _ => none

/-- Model of `AttendanceForm.clean_column_index` (lines 81-94) at the level of
the column index: drop the `questionId` columns, extract the identifier of
every remaining underscore-containing column, and reassign the column index
to the first four column names followed by the identifiers.  `none` models
the `IndexError` of the regex extraction and the pandas length-mismatch
error of the column reassignment. -/
def clean_column_index (cols : List String) : Option (List String × List String) :=
  let cols1 := cols.filter (fun c => !(endsWithQ c))
  match allKeys (cols1.filter (fun c => hasChar c '_')) with
  | none => none
  | some keys =>
    if cols1.length = 4 + keys.length then some (cols1.take 4 ++ keys, keys)
    else none

/-- Lookup of a question identifier in the `QuestionSchema` association list
`q_titles` built by `get_question_ids` (lines 75-79). -/
def lookupTitle (q : List (String × String)) (k : String) : Option String :=
  match q.find? (fun p => p.1 = k) with
  | some p => some p.2
  | none => none

/-- Model of the column pipeline of `AttendanceForm.get_attendance`
(lines 96-105): clean the column index, drop the identifiers absent from the
current schema, and rename the surviving identifiers to their question
titles. -/
def get_attendance_cols (cols : List String) (q : List (String × String)) :
    Option (List String) :=
  match clean_column_index cols with
  | none => none
  | some (cols2, keys) =>
    let dropcols := keys.filter (fun k => (lookupTitle q k).isNone)
    let cols3 := cols2.filter (fun c => !(dropcols.contains c))
    some (cols3.map (fun c => (lookupTitle q c).getD c))

/-- A submission at 19:30 on the target day, first in arrival order. -/
def rLate : Rec :=
  { responseId := "r1", createTime := "", lastSubmittedTime := some "2024-01-10T19:30:00Z",
    respondentEmail := "a@x.edu", concept := "graphs", signals := [] }

/-- A submission at 19:10 on the target day, second in arrival order. -/
def rEarly : Rec :=
  { responseId := "r2", createTime := "", lastSubmittedTime := some "2024-01-10T19:10:00Z",
    respondentEmail := "b@x.edu", concept := "graphs", signals := [] }

/-- A submission whose timestamp string pandas cannot parse. -/
def rBad : Rec :=
  { responseId := "r3", createTime := "", lastSubmittedTime := some "not a timestamp",
    respondentEmail := "c@x.edu", concept := "graphs", signals := [] }

/-- A submission with a missing (`NaN`, hence `NaT`) timestamp. -/
def rMissing : Rec :=
  { responseId := "r5", createTime := "", lastSubmittedTime := none,
    respondentEmail := "e@x.edu", concept := "graphs", signals := [] }

/-- A submission exactly at the closing boundary 20:00:00 of the window. -/
def rEnd : Rec :=
  { responseId := "r4", createTime := "", lastSubmittedTime := some "2024-01-10T20:00:00Z",
    respondentEmail := "d@x.edu", concept := "graphs", signals := [] }

/-- A roster entry used in concrete scenarios. -/
def studA : Student := { login_id := "a@x.edu", name := "Student A", id := 1 }

/-- A second roster entry used in concrete scenarios. -/
def studB : Student := { login_id := "b@x.edu", name := "Student B", id := 2 }

/-- A third roster entry used in concrete scenarios. -/
def studC : Student := { login_id := "c@x.edu", name := "Student C", id := 3 }

/-- A grade-submission provider that fails on student `a@x.edu` and succeeds
on everyone else. -/
def apiFail : Student → Nat → Except String Unit :=
  fun u _ => if u.login_id = "a@x.edu" then Except.error "boom" else Except.ok ()

/-- A grade-submission provider that always succeeds. -/
def apiOk : Student → Nat → Except String Unit :=
  fun _ _ => Except.ok ()

/-- A similarity scorer that accepts everything, used to instantiate the
opaque external fuzzy scorer in concrete scenarios. -/
def scoreConst : String → String → Nat :=
  fun _ _ => 100

/-- A submission whose concept answer still carries raw casing and
whitespace. -/
def rRaw : Rec :=
  { responseId := "r6", createTime := "", lastSubmittedTime := some "2024-01-10T19:20:00Z",
    respondentEmail := "f@x.edu", concept := "  Graphs  ", signals := [] }

/-- A submission whose only matching rating value is missing and whose other
ratings are at least 2: it must never be flagged for assistance. -/
def rFineRec : Rec :=
  { responseId := "r8", createTime := "", lastSubmittedTime := some "2024-01-10T19:22:00Z",
    respondentEmail := "h@x.edu", concept := "graphs",
    signals := [("Rate your Understanding of the concepts", Cell.missing),
                ("Rate the Speed of the lecture", Cell.num 3)] }

theorem runScores_ok (api : Student → Nat → Except String Unit) (n : Nat)
    (l : List Student) (hok : ∀ u ∈ l, api u n = Except.ok ()) :
    runScores api n l = (l.map (fun u => (u, n)), none) := by
  induction l with
  | nil => rfl
  | cons u rest ih =>
    simp only [runScores, hok u (List.mem_cons_self u rest),
      ih (fun v hv => hok v (List.mem_cons_of_mem u hv)), List.map_cons]

theorem runScores_stops (api : Student → Nat → Except String Unit) (n : Nat)
    (e : Student) (err : String) (he : api e n = Except.error err) :
    ∀ l1 : List Student, (∀ u ∈ l1, api u n = Except.ok ()) → ∀ l2,
      runScores api n (l1 ++ e :: l2) =
        (l1.map (fun u => (u, n)) ++ [(e, n)], some err) := by
  intro l1
  induction l1 with
  | nil => intro _ l2; simp only [List.nil_append, runScores, he, List.map_nil]
  | cons u rest ih =>
    intro h1 l2
    simp only [List.cons_append, runScores, h1 u (List.mem_cons_self u rest),
      List.append_eq, ih (fun v hv => h1 v (List.mem_cons_of_mem u hv)) l2, List.map_cons]

/-- Claim C1: for every roster entry, `canvas_upload` produces exactly one
decision — score 1 exactly when the entry's `login_id` appears (case-sensitive
exact string match) among the `respondentEmail` values of the validated
records, score 0 otherwise; the decisions are exactly one per roster entry
(a permutation of the per-entry decision map), their number equals the roster
size regardless of how many submissions validated, and every decision belongs
to a roster entry. -/
theorem c1_roster_reconciler (api : Student → Nat → Except String Unit)
    (roster : List Student) (df : List Rec)
    (hok : ∀ u n, api u n = Except.ok ()) :
    (canvas_upload api roster df).2 = none ∧
    (canvas_upload api roster df).1.Perm
      (roster.map (fun u => (u, if (emailsOf df).contains u.login_id then 1 else 0))) ∧
    (canvas_upload api roster df).1.length = roster.length ∧
    ∀ d ∈ (canvas_upload api roster df).1, d.1 ∈ roster := by
  have habs := runScores_ok api 0
    (roster.filter (fun u => !((emailsOf df).contains u.login_id)))
    (fun u _ => hok u 0)
  have hpres := runScores_ok api 1
    (roster.filter (fun u => (emailsOf df).contains u.login_id))
    (fun u _ => hok u 1)
  have hmain : canvas_upload api roster df =
      ((roster.filter (fun u => !((emailsOf df).contains u.login_id))).map
          (fun u => (u, 0)) ++
        (roster.filter (fun u => (emailsOf df).contains u.login_id)).map
          (fun u => (u, 1)), none) := by
    simp only [canvas_upload, habs, hpres]
  have hmapa : (roster.filter (fun u => !((emailsOf df).contains u.login_id))).map
      (fun u => (u, 0)) =
      (roster.filter (fun u => !((emailsOf df).contains u.login_id))).map
      (fun u => (u, if (emailsOf df).contains u.login_id then 1 else 0)) := by
    apply List.map_congr_left
    intro u hu
    have hc := (List.mem_filter.mp hu).2
    simp only [Bool.not_eq_true'] at hc
    have hne : ¬ ((emailsOf df).contains u.login_id = true) := by
      rw [hc]; exact Bool.false_ne_true
    rw [if_neg hne]
  have hmapp : (roster.filter (fun u => (emailsOf df).contains u.login_id)).map
      (fun u => (u, 1)) =
      (roster.filter (fun u => (emailsOf df).contains u.login_id)).map
      (fun u => (u, if (emailsOf df).contains u.login_id then 1 else 0)) := by
    apply List.map_congr_left
    intro u hu
    have hc := (List.mem_filter.mp hu).2
    rw [if_pos hc]
  have hsplit : List.Perm
      ((roster.filter (fun u => !((emailsOf df).contains u.login_id))) ++
        (roster.filter (fun u => (emailsOf df).contains u.login_id))) roster := by
    have h := List.filter_append_perm
      (fun u => !((emailsOf df).contains u.login_id)) roster
    simpa [Bool.not_not] using h
  have hperm : (canvas_upload api roster df).1.Perm
      (roster.map (fun u => (u, if (emailsOf df).contains u.login_id then 1 else 0))) := by
    rw [hmain]
    simp only [hmapa, hmapp]
    rw [← List.map_append]
    exact hsplit.map _
  refine ⟨by rw [hmain], hperm, ?_, ?_⟩
  · rw [hperm.length_eq, List.length_map]
  · intro d hd
    have := hperm.mem_iff.mp hd
    rcases List.mem_map.mp this with ⟨u, hu, hfu⟩
    rw [← hfu]
    exact hu

/-- Witness for C1 at a concrete roster of two students and one validated
record from `a@x.edu`. -/
theorem c1_roster_reconciler_witness :
    (canvas_upload apiOk [studA, studB] [rLate]).2 = none ∧
    (canvas_upload apiOk [studA, studB] [rLate]).1.Perm
      ([studA, studB].map
        (fun u => (u, if (emailsOf [rLate]).contains u.login_id then 1 else 0))) ∧
    (canvas_upload apiOk [studA, studB] [rLate]).1.length = [studA, studB].length ∧
    ∀ d ∈ (canvas_upload apiOk [studA, studB] [rLate]).1, d.1 ∈ [studA, studB] :=
  c1_roster_reconciler apiOk [studA, studB] [rLate] (fun _ _ => rfl)

/-- Counterexample to claim C8: with a provider that fails on `studA`,
uploading a two-entry roster attempts only `studA` — the failure is not
isolated, and `studB` never receives a submission attempt. -/
theorem c8_counterexample :
    canvas_upload apiFail [studA, studB] [] = ([(studA, 0)], some "boom") := by decide

/-- Claim C8 (amended): a provider failure for a single roster entry during
grade submission is fatal, not isolated — `canvas_upload` stops at the first
failing entry, and the entries after it receive no submission attempt. -/
theorem c8_first_failure_aborts (api : Student → Nat → Except String Unit)
    (l1 l2 : List Student) (e : Student) (df : List Rec) (err : String)
    (habs : ∀ u ∈ l1 ++ e :: l2, (emailsOf df).contains u.login_id = false)
    (h1 : ∀ u ∈ l1, api u 0 = Except.ok ()) (he : api e 0 = Except.error err) :
    canvas_upload api (l1 ++ e :: l2) df =
      (l1.map (fun u => (u, 0)) ++ [(e, 0)], some err) := by
  have hfilter : (l1 ++ e :: l2).filter
      (fun u => !((emailsOf df).contains u.login_id)) = l1 ++ e :: l2 := by
    apply List.filter_eq_self.mpr
    intro u hu
    rw [habs u hu]
    rfl
  have hrun := runScores_stops api 0 e err he l1 h1 l2
  simp only [canvas_upload, hfilter, hrun]

/-- Witness for the amended C8: with `apiFail`, a roster that succeeds on
`studB`, fails on `studA` and still holds `studC` attempts exactly `studB`
then `studA`, and `studC` is never attempted. -/
theorem c8_first_failure_aborts_witness :
    canvas_upload apiFail ([studB] ++ studA :: [studC]) [] =
      ([studB].map (fun u => (u, 0)) ++ [(studA, 0)], some "boom") :=
  c8_first_failure_aborts apiFail [studB] [studC] studA [] "boom"
    (by decide) (by decide) (by decide)

theorem tsInWindow_iff (S E : Nat) (r : Rec) :
    tsInWindow S E r = true ↔
      ∃ s t, r.lastSubmittedTime = some s ∧ parseTs s = some t ∧ S ≤ t ∧ t ≤ E := by
  unfold tsInWindow
  cases hls : r.lastSubmittedTime with
  | none => simp
  | some s =>
    cases hts : parseTs s with
    | none => simp [hts]
    | some t => simp [hts]

theorem filter_by_day_ok_eq (df : List Rec) (date : String) (S E : Nat)
    (out : List Rec)
    (hS : parseTs (date ++ "T19:00:00") = some S)
    (hE : parseTs (date ++ "T20:00:00") = some E)
    (hok : filter_by_day df date = Except.ok out) :
    out = List.insertionSort tsLE (df.filter (tsInWindow S E)) := by
  simp only [filter_by_day, hS, hE] at hok
  split at hok
  · exact (Except.ok.inj hok).symm
  · exact Except.noConfusion hok

/-- Claim C2: a record passes `filter_by_day` exactly when its timestamp
parses to a value `t` with `S ≤ t ≤ E`, where `S` and `E` are the parsed
window boundaries `{date}T19:00:00` and `{date}T20:00:00`; both boundary
comparisons are inclusive (closed interval). -/
theorem c2_time_window (df : List Rec) (date : String) (S E : Nat)
    (out : List Rec)
    (hS : parseTs (date ++ "T19:00:00") = some S)
    (hE : parseTs (date ++ "T20:00:00") = some E)
    (hok : filter_by_day df date = Except.ok out) (r : Rec) :
    r ∈ out ↔ r ∈ df ∧
      ∃ s t, r.lastSubmittedTime = some s ∧ parseTs s = some t ∧ S ≤ t ∧ t ≤ E := by
  rw [filter_by_day_ok_eq df date S E out hS hE hok]
  rw [List.mem_insertionSort, List.mem_filter, tsInWindow_iff]

/-- Witness for C2 at the closing boundary: a record submitted exactly at
20:00:00 is kept. -/
theorem c2_time_window_witness :
    rEnd ∈ ([rEnd] : List Rec) ↔ rEnd ∈ [rEnd] ∧
      ∃ s t, rEnd.lastSubmittedTime = some s ∧ parseTs s = some t ∧
        72751114800 ≤ t ∧ t ≤ 72751118400 :=
  c2_time_window [rEnd] "2024-01-10" 72751114800 72751118400 [rEnd]
    (by decide) (by decide) (by decide) rEnd

/-- Counterexample to claim C7: `rLate` (19:30) precedes `rEarly` (19:10) in
the input and both are kept, but the output returns them in timestamp order,
`rEarly` first — `sort_index()` does not preserve the input's relative
ordering of kept records. -/
theorem c7_counterexample :
    filter_by_day [rLate, rEarly] "2024-01-10" = Except.ok [rEarly, rLate] := by decide

/-- Claim C7 (amended): the output of `filter_by_day` is the kept records
sorted by parsed timestamp in nondecreasing order — a permutation of the
records that pass the window test, ordered by `sort_index()`, not by input
position. -/
theorem c7_sorted_by_timestamp (df : List Rec) (date : String) (S E : Nat)
    (out : List Rec)
    (hS : parseTs (date ++ "T19:00:00") = some S)
    (hE : parseTs (date ++ "T20:00:00") = some E)
    (hok : filter_by_day df date = Except.ok out) :
    List.Sorted tsLE out ∧ out.Perm (df.filter (tsInWindow S E)) := by
  rw [filter_by_day_ok_eq df date S E out hS hE hok]
  exact ⟨List.sorted_insertionSort tsLE _, List.perm_insertionSort tsLE _⟩

/-- Witness for the amended C7 on the two-record input of the
counterexample. -/
theorem c7_sorted_by_timestamp_witness :
    List.Sorted tsLE [rEarly, rLate] ∧
      List.Perm [rEarly, rLate]
        ([rLate, rEarly].filter (tsInWindow 72751114800 72751118400)) :=
  c7_sorted_by_timestamp [rLate, rEarly] "2024-01-10" 72751114800 72751118400
    [rEarly, rLate] (by decide) (by decide) (by decide)

/-- Counterexample to claim C9: a record whose timestamp string does not
parse makes `filter_by_day` fail (pandas `DatetimeIndex` raises), instead of
excluding the record with a warning. -/
theorem c9_counterexample :
    filter_by_day [rBad] "2024-01-10" = Except.error "could not parse timestamp" := by
  decide

/-- Claim C9 (amended): a record with a missing timestamp is excluded from
the window-filter output without any error (and without any warning), while a
record whose timestamp string is unparseable makes `filter_by_day` fail with
a fatal parse error; records with parseable timestamps are processed only in
the latter's absence. -/
theorem c9_timestamp_errors (df : List Rec) (date : String) (S E : Nat)
    (hS : parseTs (date ++ "T19:00:00") = some S)
    (hE : parseTs (date ++ "T20:00:00") = some E) :
    (∀ out, filter_by_day df date = Except.ok out →
      ∀ r ∈ df, r.lastSubmittedTime = none → r ∉ out) ∧
    (∀ r ∈ df, ∀ s, r.lastSubmittedTime = some s → parseTs s = none →
      filter_by_day df date = Except.error "could not parse timestamp") := by
  constructor
  · intro out hok r hr hnone
    rw [filter_by_day_ok_eq df date S E out hS hE hok]
    rw [List.mem_insertionSort, List.mem_filter]
    rintro ⟨_, hw⟩
    rw [tsInWindow_iff] at hw
    obtain ⟨s, t, hsome, _⟩ := hw
    rw [hnone] at hsome
    cases hsome
  · intro r hr s hs hps
    simp only [filter_by_day, hS, hE]
    rw [if_neg]
    intro hall
    rw [List.all_eq_true] at hall
    have hone := hall r hr
    rw [hs] at hone
    simp [hps] at hone

/-- Witness for the amended C9: on a mixed input, the missing-timestamp
record is absent from the (successful) output. -/
theorem c9_timestamp_errors_witness :
    rMissing ∉ ([rEarly] : List Rec) :=
  (c9_timestamp_errors [rMissing, rEarly] "2024-01-10" 72751114800 72751118400
      (by decide) (by decide)).1 [rEarly] (by decide) rMissing (by decide) rfl

/-- Claim C3: with the keyphrase normalized as `main` does, the Keyphrase
Validator keeps exactly the records whose concept answer, trimmed and
lower-cased, scores at least `FUZZ_THRESHOLD` (70) against the normalized
keyphrase under the external similarity scorer. -/
theorem c3_keyphrase_validator (scoreFn : String → String → Nat) (df : List Rec)
    (keyphrase : String) (r' : Rec) :
    FUZZ_THRESHOLD = 70 ∧
    (r' ∈ main_validate scoreFn df keyphrase ↔
      ∃ r ∈ df, r' = normConcept r ∧
        FUZZ_THRESHOLD ≤ scoreFn (pyNorm r.concept) (pyNorm keyphrase)) := by
  refine ⟨rfl, ?_⟩
  simp only [main_validate, filter_by_passphrase, List.mem_filter, List.mem_map,
    decide_eq_true_eq]
  constructor
  · rintro ⟨⟨r, hr, hfr⟩, hsc⟩
    subst hfr
    exact ⟨r, hr, rfl, hsc⟩
  · rintro ⟨r, hr, rfl, hsc⟩
    exact ⟨⟨r, hr, rfl⟩, hsc⟩

/-- Claim C10: the Keyphrase Validator rewrites the concept field in place —
every record it returns is an input record whose concept answer has been
replaced by its trimmed, lower-cased form, and the downstream consumers
(signal extraction, the assistance listing, and the record table written to
disk) see only that normalized value. -/
theorem c10_concept_normalized_in_place (scoreFn : String → String → Nat)
    (df : List Rec) (passphrase : String) :
    (∀ r' ∈ filter_by_passphrase scoreFn df passphrase,
      ∃ r ∈ df, r' = normConcept r) ∧
    (∀ r' ∈ convert_numeric_cols (filter_by_passphrase scoreFn df passphrase),
      ∃ r ∈ df, r'.concept = pyNorm r.concept) ∧
    (∀ r' ∈ identify_assistance_need
        (convert_numeric_cols (filter_by_passphrase scoreFn df passphrase)),
      ∃ r ∈ df, r'.concept = pyNorm r.concept) := by
  have h1 : ∀ r' ∈ filter_by_passphrase scoreFn df passphrase,
      ∃ r ∈ df, r' = normConcept r := by
    intro r' hr'
    have hmem := List.mem_of_mem_filter hr'
    rcases List.mem_map.mp hmem with ⟨r, hr, hfr⟩
    exact ⟨r, hr, hfr.symm⟩
  have h2 : ∀ r' ∈ convert_numeric_cols (filter_by_passphrase scoreFn df passphrase),
      ∃ r ∈ df, r'.concept = pyNorm r.concept := by
    intro r' hr'
    rcases List.mem_map.mp hr' with ⟨x, hx, hgx⟩
    rcases h1 x hx with ⟨r, hr, hxr⟩
    refine ⟨r, hr, ?_⟩
    rw [← hgx, hxr]
    rfl
  refine ⟨h1, h2, ?_⟩
  intro r' hr'
  exact h2 r' (List.mem_of_mem_filter hr')

/-- Witness for C10: the kept record carries `"graphs"`, the normalized form
of the submitted `"  Graphs  "`. -/
theorem c10_concept_normalized_in_place_witness :
    ∃ r ∈ [rRaw], ({ rRaw with concept := "graphs" } : Rec) = normConcept r :=
  (c10_concept_normalized_in_place scoreConst [rRaw] "graphs").1
    { rRaw with concept := "graphs" } (by decide)

/-- Claim C6: `identify_assistance_need` returns exactly the records in which
some column whose name contains one of the rating substrings (a set distinct
from the time-spent substring) holds a numeric value strictly below 2; a
missing value never satisfies the below-threshold condition, so a record
whose matching rating values are all missing or all at least 2 is never
flagged. -/
theorem c6_assistance_detector (df : List Rec) (r : Rec) :
    (ratingMatches = ["Help", "Understanding", "Speed"] ∧
      ("hours" ∈ convertMatches ∧ "hours" ∉ ratingMatches)) ∧
    (∀ t : ℚ, cellLt Cell.missing t = false) ∧
    (r ∈ identify_assistance_need df ↔ r ∈ df ∧
      ∃ p ∈ r.signals, anyMatch ratingMatches p.1 = true ∧ cellLt p.2 2 = true) ∧
    (r ∈ df → (∀ p ∈ r.signals, anyMatch ratingMatches p.1 = true →
        cellLt p.2 2 = false) →
      r ∉ identify_assistance_need df) := by
  have hiff : r ∈ identify_assistance_need df ↔ r ∈ df ∧
      ∃ p ∈ r.signals, anyMatch ratingMatches p.1 = true ∧ cellLt p.2 2 = true := by
    simp only [identify_assistance_need, List.mem_filter, List.any_eq_true,
      Bool.and_eq_true]
  refine ⟨⟨rfl, by decide, by decide⟩, fun t => rfl, hiff, ?_⟩
  intro _ hnone hmem
  rcases (hiff.mp hmem).2 with ⟨p, hp, hmatch, hlt⟩
  rw [hnone p hp hmatch] at hlt
  exact Bool.false_ne_true hlt

/-- Witness for C6: a record whose matching rating value is missing and whose
other rating is 3 is not flagged. -/
theorem c6_assistance_detector_witness :
    rFineRec ∉ identify_assistance_need [rFineRec] :=
  (c6_assistance_detector [rFineRec] rFineRec).2.2.2 (by decide) (by decide)

/-- Claim C5: the Report Aggregator takes the mean of each numeric column
over its non-missing values only (so `[2, missing, 4]` has mean 3), reports
an all-missing column as missing rather than as 0 or an error, and ignores
non-numeric columns, each column contributing its own independent entry. -/
theorem c5_report_aggregator :
    (colMean [some 2, none, some 4] = some 3) ∧
    (∀ vals : List (Option ℚ), vals.filterMap id = [] → colMean vals = none) ∧
    (∀ (vals : List (Option ℚ)) (v : ℚ), colMean vals = some v →
      vals.filterMap id ≠ [] ∧
        v = (vals.filterMap id).sum / ((vals.filterMap id).length : ℚ)) ∧
    (∀ (tbl : List (String × ColData)) (n : String) (vs : List (Option ℚ)),
      (n, ColData.numeric vs) ∈ tbl → (n, colMean vs) ∈ report tbl) ∧
    (∀ (tbl : List (String × ColData)) (n : String) (m : Option ℚ),
      (n, m) ∈ report tbl → ∃ vs, (n, ColData.numeric vs) ∈ tbl ∧ m = colMean vs) := by
  refine ⟨?_, ?_, ?_, ?_, ?_⟩
  · simp only [colMean, List.filterMap]
    norm_num
  · intro vals h
    simp [colMean, h]
  · intro vals v h
    unfold colMean at h
    by_cases he : (vals.filterMap id).isEmpty
    · rw [if_pos he] at h
      cases h
    · rw [if_neg he] at h
      refine ⟨by simpa [List.isEmpty_iff] using he, (Option.some.inj h).symm⟩
  · intro tbl n vs hmem
    exact List.mem_filterMap.mpr ⟨(n, ColData.numeric vs), hmem, rfl⟩
  · intro tbl n m hmem
    rcases List.mem_filterMap.mp hmem with ⟨p, hp, hfp⟩
    rcases p with ⟨pn, pc⟩
    cases pc with
    | numeric vs =>
      simp only [report] at hfp
      have h1 : pn = n := congrArg Prod.fst (Option.some.inj hfp)
      have h2 : colMean vs = m := congrArg Prod.snd (Option.some.inj hfp)
      exact ⟨vs, h1 ▸ hp, h2.symm⟩
    | text vs => cases hfp

/-- Witness for C5: the mean of an all-missing column is missing. -/
theorem c5_report_aggregator_witness : colMean [none, none] = none :=
  c5_report_aggregator.2.1 [none, none] rfl

theorem allKeys_eq_filterMap (l : List String)
    (h : ∀ a ∈ l, (extractKey a).isSome) :
    allKeys l = some (l.filterMap extractKey) := by
  induction l with
  | nil => rfl
  | cons c cs ih =>
    obtain ⟨k, hk⟩ := Option.isSome_iff_exists.mp (h c (List.mem_cons_self c cs))
    rw [allKeys, hk, ih (fun a ha => h a (List.mem_cons_of_mem c ha))]
    simp [List.filterMap_cons, hk]

theorem filterMap_extractKey_length (l : List String)
    (h : ∀ a ∈ l, (extractKey a).isSome) :
    (l.filterMap extractKey).length = l.length := by
  induction l with
  | nil => rfl
  | cons c cs ih =>
    obtain ⟨k, hk⟩ := Option.isSome_iff_exists.mp (h c (List.mem_cons_self c cs))
    simp [List.filterMap_cons, hk,
      ih (fun a ha => h a (List.mem_cons_of_mem c ha))]

/-- Claim C4: on a column index of the RawSubmission shape — the four
metadata columns first (no underscore, no `questionId` suffix, no name that
collides with the schema or with an extracted identifier), followed by the
flattened answer columns (each with an embedded question identifier between
its first two underscores) — `get_attendance` yields exactly the four
metadata columns, unchanged and unrenamed, followed by the titles in the
schema `q` of the identifiers present in `q`; every column whose identifier
is absent from `q` is dropped. -/
theorem c4_schema_normalizer (meta answers : List String)
    (q : List (String × String))
    (hm4 : meta.length = 4)
    (hmNoU : ∀ m ∈ meta, hasChar m '_' = false)
    (hmNoQ : ∀ m ∈ meta, endsWithQ m = false)
    (hmNoT : ∀ m ∈ meta, lookupTitle q m = none)
    (hmNoK : ∀ m ∈ meta, ∀ a ∈ answers, extractKey a ≠ some m)
    (haU : ∀ a ∈ answers, hasChar a '_' = true)
    (haK : ∀ a ∈ answers, (extractKey a).isSome) :
    get_attendance_cols (meta ++ answers) q =
      some (meta ++
        ((((answers.filter (fun a => !(endsWithQ a))).filterMap extractKey).filter
            (fun k => (lookupTitle q k).isSome)).map
          (fun k => (lookupTitle q k).getD k))) := by
  have h1 : (meta ++ answers).filter (fun c => !(endsWithQ c)) =
      meta ++ answers.filter (fun c => !(endsWithQ c)) := by
    rw [List.filter_append]
    congr 1
    refine List.filter_eq_self.mpr ?_
    intro m hm
    rw [hmNoQ m hm]
    rfl
  have hAsub : ∀ a ∈ answers.filter (fun c => !(endsWithQ c)), a ∈ answers :=
    fun a ha => List.mem_of_mem_filter ha
  have h2 : (meta ++ answers.filter (fun c => !(endsWithQ c))).filter
      (fun c => hasChar c '_') = answers.filter (fun c => !(endsWithQ c)) := by
    rw [List.filter_append]
    have hmeta : meta.filter (fun c => hasChar c '_') = [] := by
      refine List.filter_eq_nil_iff.mpr ?_
      intro m hm
      rw [hmNoU m hm]
      exact Bool.false_ne_true
    have hA : (answers.filter (fun c => !(endsWithQ c))).filter
        (fun c => hasChar c '_') = answers.filter (fun c => !(endsWithQ c)) :=
      List.filter_eq_self.mpr (fun a ha => haU a (hAsub a ha))
    rw [hmeta, hA, List.nil_append]
  have haKA : ∀ a ∈ answers.filter (fun c => !(endsWithQ c)), (extractKey a).isSome :=
    fun a ha => haK a (hAsub a ha)
  have h3 : allKeys (answers.filter (fun c => !(endsWithQ c))) =
      some ((answers.filter (fun c => !(endsWithQ c))).filterMap extractKey) :=
    allKeys_eq_filterMap _ haKA
  have hmemkeys : ∀ k ∈ (answers.filter (fun c => !(endsWithQ c))).filterMap extractKey,
      ∃ a ∈ answers, extractKey a = some k := by
    intro k hk
    rcases List.mem_filterMap.mp hk with ⟨a, ha, hak⟩
    exact ⟨a, hAsub a ha, hak⟩
  have hlen : (meta ++ answers.filter (fun c => !(endsWithQ c))).length =
      4 + ((answers.filter (fun c => !(endsWithQ c))).filterMap extractKey).length := by
    rw [List.length_append, hm4, filterMap_extractKey_length _ haKA]
  have htake : (meta ++ answers.filter (fun c => !(endsWithQ c))).take 4 = meta := by
    rw [← hm4]
    exact List.take_left meta _
  have hcci : clean_column_index (meta ++ answers) =
      some (meta ++ (answers.filter (fun x => !(endsWithQ x))).filterMap extractKey,
        (answers.filter (fun x => !(endsWithQ x))).filterMap extractKey) := by
    simp only [clean_column_index, h1, h2, h3]
    rw [if_pos hlen, htake]
  have hdropsub : ∀ c, c ∈ ((answers.filter (fun x => !(endsWithQ x))).filterMap
        extractKey).filter (fun k => (lookupTitle q k).isNone) →
      c ∈ (answers.filter (fun x => !(endsWithQ x))).filterMap extractKey :=
    fun c hc => List.mem_of_mem_filter hc
  have hfilters : (meta ++ (answers.filter (fun x => !(endsWithQ x))).filterMap
      extractKey).filter (fun c => !(List.contains (((answers.filter
        (fun x => !(endsWithQ x))).filterMap extractKey).filter
        (fun k => (lookupTitle q k).isNone)) c)) =
      meta ++ ((answers.filter (fun x => !(endsWithQ x))).filterMap extractKey).filter
        (fun k => (lookupTitle q k).isSome) := by
    rw [List.filter_append]
    congr 1
    · refine List.filter_eq_self.mpr ?_
      intro m hm
      cases hc : List.contains (((answers.filter (fun x => !(endsWithQ x))).filterMap
          extractKey).filter (fun k => (lookupTitle q k).isNone)) m with
      | false => rfl
      | true =>
        exfalso
        have hmemdrop : m ∈ ((answers.filter (fun x => !(endsWithQ x))).filterMap
            extractKey).filter (fun k => (lookupTitle q k).isNone) := by
          simpa using hc
        rcases hmemkeys m (hdropsub m hmemdrop) with ⟨a, ha, hak⟩
        exact hmNoK m hm a ha hak
    · refine List.filter_congr ?_
      intro k hk
      show (!(List.contains (((answers.filter (fun x => !(endsWithQ x))).filterMap
          extractKey).filter (fun x => (lookupTitle q x).isNone)) k)) =
        (lookupTitle q k).isSome
      cases hl : lookupTitle q k with
      | none =>
        have hkdrop : k ∈ ((answers.filter (fun x => !(endsWithQ x))).filterMap
            extractKey).filter (fun x => (lookupTitle q x).isNone) :=
          List.mem_filter.mpr ⟨hk, by rw [hl]; rfl⟩
        have : List.contains (((answers.filter (fun x => !(endsWithQ x))).filterMap
            extractKey).filter (fun x => (lookupTitle q x).isNone)) k = true := by
          simpa using hkdrop
        rw [this]
        rfl
      | some title =>
        have hkdrop : k ∉ ((answers.filter (fun x => !(endsWithQ x))).filterMap
            extractKey).filter (fun x => (lookupTitle q x).isNone) := by
          intro hmem
          have := (List.mem_filter.mp hmem).2
          rw [hl] at this
          cases this
        have : List.contains (((answers.filter (fun x => !(endsWithQ x))).filterMap
            extractKey).filter (fun x => (lookupTitle q x).isNone)) k = false := by
          simpa using hkdrop
        rw [this]
        rfl
  have hmetamap : meta.map (fun c => (lookupTitle q c).getD c) = meta := by
    have := List.map_congr_left (l := meta)
      (f := fun c => (lookupTitle q c).getD c) (g := fun c => c)
      (fun m hm => by show (lookupTitle q m).getD m = m; rw [hmNoT m hm]; rfl)
    simpa using this
  simp only [get_attendance_cols, hcci]
  rw [hfilters, List.map_append, hmetamap]

/-- Witness for C4 on a concrete flattened response: question `q1` is in the
schema and keeps its title, question `q2` is deprecated and is dropped, and
the four metadata columns pass through unchanged. -/
theorem c4_schema_normalizer_witness :
    get_attendance_cols
      (["responseId", "createTime", "lastSubmittedTime", "respondentEmail"] ++
        ["answers_q1_questionId", "answers_q1_textAnswers_answers_0_value",
         "answers_q2_questionId", "answers_q2_textAnswers_answers_0_value"])
      [("q1", "What is the Concept of the Day?")] =
      some (["responseId", "createTime", "lastSubmittedTime", "respondentEmail"] ++
        (((["answers_q1_questionId", "answers_q1_textAnswers_answers_0_value",
            "answers_q2_questionId",
            "answers_q2_textAnswers_answers_0_value"].filter
              (fun a => !(endsWithQ a))).filterMap extractKey).filter
            (fun k =>
              (lookupTitle [("q1", "What is the Concept of the Day?")] k).isSome)).map
          (fun k => (lookupTitle [("q1", "What is the Concept of the Day?")] k).getD k)) :=
  c4_schema_normalizer
    ["responseId", "createTime", "lastSubmittedTime", "respondentEmail"]
    ["answers_q1_questionId", "answers_q1_textAnswers_answers_0_value",
     "answers_q2_questionId", "answers_q2_textAnswers_answers_0_value"]
    [("q1", "What is the Concept of the Day?")]
    (by decide) (by decide) (by decide) (by decide) (by decide) (by decide) (by decide)
